import Mathlib

/-!
Verification of the ECU simulator core (signal codec, fixed-rate scheduler,
transports, transmission recovery loop) against its specification.

The code is embedded shallowly: physical values are rationals, raw values are
integers, fallible operations return `Except`, and the stateful loops are
explicit state-passing functions over traces of externally observed events.
-/

/-- Rounding to the nearest integer with ties to even, as Python `round`
behaves on the float quotients produced by `to_raw`. -/
def pyRound (q : ℚ) : ℤ :=
  if q - ⌊q⌋ < 1 / 2 then ⌊q⌋
  else if 1 / 2 < q - ⌊q⌋ then ⌊q⌋ + 1
  else if ⌊q⌋ % 2 = 0 then ⌊q⌋ else ⌊q⌋ + 1

/-- Per-signal metadata, as carried by the cantools `Signal` objects that
`dbc_codec.py` consumes (fields the codec reads, plus the bit-layout fields
checked by `dbc_loader.assert_expected_layout`). -/
structure Signal where
  name : String
  start : ℕ
  length : ℕ
  big_endian : Bool
  is_signed : Bool
  scale : ℚ
  offset : ℚ
deriving DecidableEq

/-- A cantools message: frame id, name, byte length, and its signal list in
database order. -/
structure Message where
  name : String
  frame_id : ℕ
  length : ℕ
  signals : List Signal
deriving DecidableEq

/-- `dbc_codec.raw_limits`: raw integer limits from bit length and
signedness. -/
def raw_limits (sig : Signal) : ℤ × ℤ :=
  if sig.is_signed then (-(2 ^ (sig.length - 1)), 2 ^ (sig.length - 1) - 1)
  else (0, 2 ^ sig.length - 1)

/-- `dbc_codec.to_raw`: physical value to raw integer, unclamped. -/
def to_raw (sig : Signal) (phys : ℚ) : ℤ :=
  pyRound ((phys - sig.offset) / sig.scale)

/-- `dbc_codec.to_phys`: raw integer back to physical value. -/
def to_phys (sig : Signal) (raw : ℤ) : ℚ :=
  raw * sig.scale + sig.offset

/-- `dbc_codec._clamp_raw`: clamp a raw value to the signal raw limits,
reporting whether clamping occurred. -/
def _clamp_raw (sig : Signal) (raw_val : ℤ) : ℤ × Bool :=
  if raw_val < (raw_limits sig).1 then ((raw_limits sig).1, true)
  else if raw_val > (raw_limits sig).2 then ((raw_limits sig).2, true)
  else (raw_val, false)

/-- The kinds of per-signal desired values `encode_message_safe` can receive:
a finite number, a value `float()` rejects, or a non-finite float. -/
inductive SigInput where
  | num (q : ℚ)
  | nonNum
  | nonFinite
deriving DecidableEq

/-- The value-sanitation step of `encode_message_safe`: non-numeric and
non-finite inputs are replaced by the physical value 0.0. -/
def sanitize : SigInput → ℚ
  | SigInput.num q => q
  | SigInput.nonNum => 0
  | SigInput.nonFinite => 0

/-- The per-signal loop body of `dbc_codec.encode_message_safe`, iterated over
a signal list: returns the `used_phys` entries in signal order and the
`clamped` entries (requested input and sent physical value) for the signals
that were clamped. -/
def encodeSignals (d : String → Option SigInput) :
    List Signal → List (String × ℚ) × List (String × SigInput × ℚ)
  | [] => ([], [])
  | sig :: rest =>
      let requested := (d sig.name).getD (SigInput.num 0)
      let phys_val := sanitize requested
      let raw := to_raw sig phys_val
      let rc := _clamp_raw sig raw
      let phys_used := to_phys sig rc.1
      let tail := encodeSignals d rest
      ((sig.name, phys_used) :: tail.1,
       if rc.2 then (sig.name, requested, phys_used) :: tail.2 else tail.2)

/-- `dbc_codec.encode_message_safe`, restricted to the value computation: the
byte packing is delegated to `cantools.Message.encode` on the `used_phys`
values and is outside this model. -/
def encode_message_safe (msg : Message) (d : String → Option SigInput) :
    List (String × ℚ) × List (String × SigInput × ℚ) :=
  encodeSignals d msg.signals

lemma raw_limits_fst (sig : Signal) :
    (raw_limits sig).1 = if sig.is_signed then -(2 ^ (sig.length - 1)) else 0 := by
  unfold raw_limits
  by_cases h : sig.is_signed <;> simp [h]

lemma raw_limits_snd (sig : Signal) :
    (raw_limits sig).2
      = if sig.is_signed then 2 ^ (sig.length - 1) - 1 else 2 ^ sig.length - 1 := by
  unfold raw_limits
  by_cases h : sig.is_signed <;> simp [h]

lemma raw_limits_le (sig : Signal) : (raw_limits sig).1 ≤ (raw_limits sig).2 := by
  rw [raw_limits_fst, raw_limits_snd]
  by_cases h : sig.is_signed <;> simp [h]
  · have hp : (0 : ℤ) < 2 ^ (sig.length - 1) := pow_pos (by norm_num) _
    omega
  · have hp : (0 : ℤ) < 2 ^ sig.length := pow_pos (by norm_num) _
    omega

lemma raw_limits_fst_nonpos (sig : Signal) : (raw_limits sig).1 ≤ 0 := by
  rw [raw_limits_fst]
  by_cases h : sig.is_signed <;> simp [h]

lemma raw_limits_snd_nonneg (sig : Signal) : 0 ≤ (raw_limits sig).2 := by
  rw [raw_limits_snd]
  by_cases h : sig.is_signed <;> simp [h]
  · have hp : (0 : ℤ) < 2 ^ (sig.length - 1) := pow_pos (by norm_num) _
    omega
  · have hp : (0 : ℤ) < 2 ^ sig.length := pow_pos (by norm_num) _
    omega

lemma clamp_raw_fst (sig : Signal) (r : ℤ) :
    (_clamp_raw sig r).1 = max (raw_limits sig).1 (min (raw_limits sig).2 r) := by
  have h := raw_limits_le sig
  unfold _clamp_raw
  split_ifs with h1 h2 <;> simp <;> omega

lemma pyRound_sub_abs_le (q : ℚ) : |(pyRound q : ℚ) - q| ≤ 1 / 2 := by
  have h0 : (⌊q⌋ : ℚ) ≤ q := Int.floor_le q
  have h1 : q < ⌊q⌋ + 1 := Int.lt_floor_add_one q
  unfold pyRound
  split_ifs with ha hb hc <;>
    (rw [abs_le]; constructor <;> push_cast <;> linarith)

/-- C1: for every signal and finite numeric desired value, the used physical
value reported by `encode_message_safe` is obtained by rounding
`(x - offset) / scale`, clamping the result to the raw limits derived from the
bit length and signedness (`[0, 2^len - 1]` unsigned,
`[-2^(len-1), 2^(len-1) - 1]` signed), and mapping the clamped raw value back
with `raw_clamped * scale + offset`. -/
theorem encode_message_safe_used_phys (msg : Message) (d : String → Option SigInput) :
    (encode_message_safe msg d).1 = msg.signals.map fun sig =>
      (sig.name,
        (((max (if sig.is_signed then -(2 ^ (sig.length - 1)) else 0)
              (min (if sig.is_signed then 2 ^ (sig.length - 1) - 1 else 2 ^ sig.length - 1)
                   (pyRound ((sanitize ((d sig.name).getD (SigInput.num 0)) - sig.offset)
                       / sig.scale)))
          : ℤ) : ℚ) * sig.scale + sig.offset)) := by
  unfold encode_message_safe
  induction msg.signals with
  | nil => rfl
  | cons sig rest ih =>
      simp only [encodeSignals, List.map_cons, ih, clamp_raw_fst, raw_limits_fst,
        raw_limits_snd, to_phys, to_raw]

/-- C2: for every signal with positive scale and every physical value inside
the raw-limit-derived physical range, decoding the encoded raw value
round-trips to within one raw resolution unit: the error is at most `scale`. -/
theorem round_trip_within_scale (sig : Signal) (x : ℚ) (hs : 0 < sig.scale)
    (hlo : to_phys sig (raw_limits sig).1 ≤ x)
    (hhi : x ≤ to_phys sig (raw_limits sig).2) :
    |to_phys sig (to_raw sig x) - x| ≤ sig.scale := by
  have hne : sig.scale ≠ 0 := ne_of_gt hs
  have hkey : to_phys sig (to_raw sig x) - x
      = ((pyRound ((x - sig.offset) / sig.scale) : ℚ) - (x - sig.offset) / sig.scale)
        * sig.scale := by
    field_simp [to_phys, to_raw]
    ring
  rw [hkey, abs_mul, abs_of_pos hs]
  have hb := pyRound_sub_abs_le ((x - sig.offset) / sig.scale)
  nlinarith [abs_nonneg ((pyRound ((x - sig.offset) / sig.scale) : ℚ)
    - (x - sig.offset) / sig.scale)]

/-- Concrete unsigned 16-bit signal (the `rpm` layout from the loader). -/
def rpmSig : Signal :=
  { name := "rpm", start := 23, length := 16, big_endian := true,
    is_signed := false, scale := 1, offset := 0 }

/-- C2 witness at the `rpm` signal and x = 3. -/
theorem round_trip_within_scale_witness :
    |to_phys rpmSig (to_raw rpmSig 3) - 3| ≤ rpmSig.scale :=
  round_trip_within_scale rpmSig 3 (by norm_num [rpmSig])
    (by norm_num [to_phys, raw_limits, rpmSig])
    (by norm_num [to_phys, raw_limits, rpmSig])

/-- C8: non-numeric and non-finite desired values are substituted by the
physical value 0.0 before raw conversion, never fatally: the used physical
value for every signal equals `to_phys` of the clamped `to_raw` of 0. -/
theorem nonfinite_inputs_substituted (msg : Message) :
    (encode_message_safe msg (fun _ => some SigInput.nonNum)).1
        = msg.signals.map (fun sig => (sig.name, to_phys sig (_clamp_raw sig (to_raw sig 0)).1))
    ∧ (encode_message_safe msg (fun _ => some SigInput.nonFinite)).1
        = msg.signals.map (fun sig => (sig.name, to_phys sig (_clamp_raw sig (to_raw sig 0)).1)) := by
  unfold encode_message_safe
  constructor <;>
    (induction msg.signals with
     | nil => rfl
     | cons sig rest ih =>
         simp only [encodeSignals, List.map_cons, ih, Option.getD_some, sanitize])

/-- C9: a physical value whose raw conversion lands exactly on a raw limit and
one whose raw conversion is twice that limit clamp to the same raw value:
saturation at the limit, never wraparound. -/
theorem clamp_saturates_at_limits (sig : Signal) (x y : ℚ) (L : ℤ)
    (hL : L = (raw_limits sig).1 ∨ L = (raw_limits sig).2)
    (hx : to_raw sig x = L) (hy : to_raw sig y = 2 * L) :
    (_clamp_raw sig (to_raw sig x)).1 = (_clamp_raw sig (to_raw sig y)).1 := by
  have hle := raw_limits_le sig
  have hlo := raw_limits_fst_nonpos sig
  have hhi := raw_limits_snd_nonneg sig
  rw [hx, hy, clamp_raw_fst, clamp_raw_fst]
  rcases hL with h | h <;> subst h <;> omega

lemma pyRound_intCast (n : ℤ) : pyRound (n : ℚ) = n := by
  have h : ((n : ℚ)) - (⌊(n : ℚ)⌋ : ℚ) = 0 := by simp
  simp only [pyRound, h, Int.floor_intCast]
  norm_num

/-- C9 witness: on the 16-bit unsigned `rpm` signal, encoding 65535 (exactly
the raw maximum) and 131070 (twice the maximum) clamp to the same raw value. -/
theorem clamp_saturates_at_limits_witness :
    (_clamp_raw rpmSig (to_raw rpmSig 65535)).1
      = (_clamp_raw rpmSig (to_raw rpmSig 131070)).1 :=
  clamp_saturates_at_limits rpmSig 65535 131070 65535
    (Or.inr (by norm_num [raw_limits, rpmSig]))
    (by
      have h := pyRound_intCast 65535
      unfold to_raw rpmSig
      norm_num
      exact_mod_cast h)
    (by
      have h := pyRound_intCast 131070
      unfold to_raw rpmSig
      norm_num
      exact_mod_cast h)

/-- State of `scheduler.FixedRateScheduler`: rate, period `dt = 1/hz`, and the
optional `_start` and `_next` monotonic timestamps. -/
structure SchedState where
  hz : ℚ
  dt : ℚ
  start : Option ℚ
  next : Option ℚ
deriving DecidableEq

namespace FixedRateScheduler

/-- `FixedRateScheduler.__init__`: rejects non-positive rates with
`ValueError`, otherwise stores `dt = 1.0 / hz` with the scheduler unstarted. -/
def init (hz : ℚ) : Except String SchedState :=
  if hz ≤ 0 then Except.error "hz must be positive"
  else Except.ok { hz := hz, dt := 1 / hz, start := none, next := none }

/-- `FixedRateScheduler.start` at monotonic time `now`. -/
def startAt (s : SchedState) (now : ℚ) : SchedState :=
  { s with start := some now, next := some (now + s.dt) }

/-- Python float truthiness of `self._start or now`: `None` and `0.0` both
select `now`. -/
def pyOrFloat (a : Option ℚ) (b : ℚ) : ℚ :=
  match a with
  | none => b
  | some x => if x = 0 then b else x

/-- `FixedRateScheduler.wait_next`, with the monotonic clock passed in
explicitly: `now0` is the sample taken by `start()` when the scheduler is
unstarted, `nowA` the sample at the top of the loop body, and `nowB` the
sample taken after sleeping. Returns the new state, the reported elapsed
time, and whether the call slept. -/
def wait_next (s : SchedState) (now0 nowA nowB : ℚ) : SchedState × ℚ × Bool :=
  let s1 := if s.start = none ∨ s.next = none then startAt s now0 else s
  match s1.next with
  | none => (s1, 0, false)
  | some nx =>
      if 0 < nx - nowA then
        ({ s1 with next := some (nx + s1.dt) }, nowB - pyOrFloat s1.start nowB, true)
      else
        ({ s1 with next := some (nowA + s1.dt) }, nowA - pyOrFloat s1.start nowA, false)

end FixedRateScheduler

/-- C3: on a started scheduler, a late call (`nowA` at or past the stored
deadline) does not sleep and realigns the deadline to `nowA` before adding one
period; every call advances the deadline by exactly one period over the
realigned base; and after a late call the new deadline is strictly in the
future, so at most one immediate back-to-back tick can occur. -/
theorem wait_next_no_burst_catchup (s : SchedState) (st nx : ℚ)
    (hs : s.start = some st) (hn : s.next = some nx) (now0 nowA nowB : ℚ) :
    ((FixedRateScheduler.wait_next s now0 nowA nowB).1.next
        = some ((if nx ≤ nowA then nowA else nx) + s.dt))
    ∧ (nx ≤ nowA → (FixedRateScheduler.wait_next s now0 nowA nowB).2.2 = false)
    ∧ (nx ≤ nowA → 0 < s.dt →
        nowA < ((FixedRateScheduler.wait_next s now0 nowA nowB).1.next).getD nowA) := by
  unfold FixedRateScheduler.wait_next
  rw [if_neg (by simp [hs, hn])]
  simp only [hn]
  by_cases h : 0 < nx - nowA
  · have hnle : ¬ nx ≤ nowA := by linarith
    rw [if_pos h]
    exact ⟨by simp [hnle], fun hc => absurd hc hnle, fun hc _ => absurd hc hnle⟩
  · have hle : nx ≤ nowA := by linarith
    rw [if_neg h]
    refine ⟨by simp [hle], fun _ => rfl, fun _ hdt => ?_⟩
    simp only [Option.getD_some]
    linarith

/-- A started scheduler state at 10 Hz used as the C3 witness input. -/
def schedExample : SchedState :=
  { hz := 10, dt := 1 / 10, start := some 0, next := some (1 / 10) }

/-- C3 witness: a call that arrives one period late does not sleep and
realigns the deadline. -/
theorem wait_next_no_burst_catchup_witness :
    ((FixedRateScheduler.wait_next schedExample 0 (1 / 5) (1 / 5)).1.next
        = some ((if (1 / 10 : ℚ) ≤ 1 / 5 then (1 / 5 : ℚ) else 1 / 10) + schedExample.dt))
    ∧ ((1 / 10 : ℚ) ≤ 1 / 5 →
        (FixedRateScheduler.wait_next schedExample 0 (1 / 5) (1 / 5)).2.2 = false)
    ∧ ((1 / 10 : ℚ) ≤ 1 / 5 → 0 < schedExample.dt →
        (1 / 5 : ℚ)
          < ((FixedRateScheduler.wait_next schedExample 0 (1 / 5) (1 / 5)).1.next).getD (1 / 5)) :=
  wait_next_no_burst_catchup schedExample 0 (1 / 10) rfl rfl 0 (1 / 5) (1 / 5)

/-- C10: constructing the scheduler with `hz ≤ 0` raises `ValueError`; with
`hz > 0` it succeeds, the period is `1 / hz`, and the scheduler is initially
unstarted. -/
theorem scheduler_init_validates_rate (hz : ℚ) :
    (hz ≤ 0 → FixedRateScheduler.init hz = Except.error "hz must be positive")
    ∧ (0 < hz → FixedRateScheduler.init hz
        = Except.ok { hz := hz, dt := 1 / hz, start := none, next := none }) := by
  constructor <;> intro h
  · simp [FixedRateScheduler.init, h]
  · simp [FixedRateScheduler.init, not_le.mpr h]

/-- C10 witness at hz = -1 and hz = 20. -/
theorem scheduler_init_validates_rate_witness :
    FixedRateScheduler.init (-1) = Except.error "hz must be positive"
    ∧ FixedRateScheduler.init 20
        = Except.ok { hz := 20, dt := 1 / 20, start := none, next := none } :=
  ⟨(scheduler_init_validates_rate (-1)).1 (by norm_num),
   (scheduler_init_validates_rate 20).2 (by norm_num)⟩

/-- Outcome of the underlying link operation inside a transport `send`:
success, a recoverable bus error (`can.CanError` for python-can, any write
failure for the serial backends), or an unexpected exception of another
class. -/
inductive LinkResult where
  | ok
  | busErr
  | fatal
deriving DecidableEq

/-- A guarded `try ... except Exception: pass` block around an operation that
may raise: always succeeds. -/
def tryPass (r : Except String Unit) : Except String Unit :=
  match r with
  | Except.ok _ => Except.ok ()
  | Except.error _ => Except.ok ()

namespace TermuxUsbSlcanTransport

/-- `TermuxUsbSlcanTransport.send`: raises if the device is not open; on a
write failure it increments `tx_errors` and re-raises the exception. The
result pairs the returned-or-raised outcome with the new `tx_errors`. -/
def send (devOpen : Bool) (txErrors : ℕ) (r : LinkResult) : Except String Bool × ℕ :=
  if devOpen then
    match r with
    | LinkResult.ok => (Except.ok true, txErrors)
    | _ => (Except.error "write failed", txErrors + 1)
  else (Except.error "termux-usb device not open", txErrors)

end TermuxUsbSlcanTransport

namespace TermuxUsbSlcan

/-- `transports.termux_libusb_slcan.TermuxUsbSlcan.close`: three libusb
teardown calls, each wrapped in `try ... except Exception: pass`. -/
def close (r1 r2 r3 : Except String Unit) : Except String Unit :=
  match tryPass r1 with
  | Except.error e => Except.error e
  | Except.ok _ =>
      match tryPass r2 with
      | Except.error e => Except.error e
      | Except.ok _ => tryPass r3

end TermuxUsbSlcan

namespace TermuxUsbSlcanTransport

/-- `TermuxUsbSlcanTransport.close`: if a device is held, call the device
close (unguarded in the transport, but itself exception-free) and drop the
reference; a missing device is a no-op. -/
def close (dev : Option Unit) (r1 r2 r3 : Except String Unit) :
    Except String (Option Unit) :=
  match dev with
  | none => Except.ok none
  | some _ =>
      match TermuxUsbSlcan.close r1 r2 r3 with
      | Except.ok _ => Except.ok none
      | Except.error e => Except.error e

end TermuxUsbSlcanTransport

namespace PythonCanTransport

/-- `PythonCanTransport.send`: raises if the bus is not open; returns True on
success; catches `can.CanError`, increments `tx_errors` and returns False;
lets any other exception propagate without touching `tx_errors`. -/
def send (busOpen : Bool) (txErrors : ℕ) (r : LinkResult) : Except String Bool × ℕ :=
  if busOpen then
    match r with
    | LinkResult.ok => (Except.ok true, txErrors)
    | LinkResult.busErr => (Except.ok false, txErrors + 1)
    | LinkResult.fatal => (Except.error "unexpected exception", txErrors)
  else (Except.error "CAN bus is not open", txErrors)

/-- `PythonCanTransport.close`: no-op when the bus is absent; otherwise a
guarded `shutdown()` then a guarded `bus.close()`, then the reference is
dropped. -/
def close (bus : Option Unit) (shutdownRes closeRes : Except String Unit) :
    Except String (Option Unit) :=
  match bus with
  | none => Except.ok none
  | some _ =>
      match tryPass shutdownRes with
      | Except.error e => Except.error e
      | Except.ok _ =>
          match tryPass closeRes with
          | Except.error e => Except.error e
          | Except.ok _ => Except.ok none

end PythonCanTransport

namespace SlcanSerialTransport

/-- The validation logic of `SlcanSerialTransport.format_frame`: rejects a
payload longer than 8 bytes and an arbitration id outside the standard
(11-bit) or extended (29-bit) range; the ASCII rendering of the accepted
frame is abstracted away. -/
def format_frame (frame_id : ℤ) (dlc : ℕ) (is_extended : Bool) :
    Except String Unit :=
  if 8 < dlc then Except.error "SLCAN payload too long"
  else if is_extended then
    if frame_id > 0x1FFFFFFF ∨ frame_id < 0 then
      Except.error "SLCAN extended ID out of range"
    else Except.ok ()
  else if frame_id > 0x7FF ∨ frame_id < 0 then
    Except.error "SLCAN standard ID out of range"
  else Except.ok ()

/-- `SlcanSerialTransport.send`: raises if the port is not open; raises on a
malformed frame (`format_frame` runs outside the try block); otherwise any
write failure is caught, increments `tx_errors` and returns False. -/
def send (serOpen : Bool) (txErrors : ℕ) (frame_id : ℤ) (dlc : ℕ)
    (is_extended : Bool) (r : LinkResult) : Except String Bool × ℕ :=
  if serOpen then
    match format_frame frame_id dlc is_extended with
    | Except.error e => (Except.error e, txErrors)
    | Except.ok _ =>
        match r with
        | LinkResult.ok => (Except.ok true, txErrors)
        | _ => (Except.ok false, txErrors + 1)
  else (Except.error "Serial port not open", txErrors)

/-- `SlcanSerialTransport.close`: no-op when the port is absent; otherwise a
guarded close-channel command write then a guarded `ser.close()`, then the
reference is dropped. -/
def close (ser : Option Unit) (writeCmdRes closeRes : Except String Unit) :
    Except String (Option Unit) :=
  match ser with
  | none => Except.ok none
  | some _ =>
      match tryPass writeCmdRes with
      | Except.error e => Except.error e
      | Except.ok _ =>
          match tryPass closeRes with
          | Except.error e => Except.error e
          | Except.ok _ => Except.ok none

end SlcanSerialTransport

/-- C6 counterexample: on the Termux USB SLCAN transport, a recoverable write
failure does not return False — the send raises (after incrementing
`tx_errors`), refuting the claim for that transport variant. -/
theorem termux_send_raises_on_failure :
    TermuxUsbSlcanTransport.send true 0 LinkResult.busErr
      = (Except.error "write failed", 1) := rfl

/-- C6 (amended): the python-can and serial SLCAN transports return False
(without raising) on a recoverable transmit failure and increment `tx_errors`
by one on every call that returns False; the Termux USB SLCAN transport
instead increments `tx_errors` and re-raises the exception. -/
theorem send_failure_contract :
    (∀ t : ℕ, PythonCanTransport.send true t LinkResult.busErr = (Except.ok false, t + 1))
    ∧ (∀ (t : ℕ) (fid : ℤ) (dlc : ℕ) (ext : Bool) (r : LinkResult),
        SlcanSerialTransport.format_frame fid dlc ext = Except.ok () →
        r ≠ LinkResult.ok →
        SlcanSerialTransport.send true t fid dlc ext r = (Except.ok false, t + 1))
    ∧ (∀ (t : ℕ) (r : LinkResult), r ≠ LinkResult.ok →
        TermuxUsbSlcanTransport.send true t r = (Except.error "write failed", t + 1))
    ∧ (∀ (t : ℕ) (r : LinkResult),
        (PythonCanTransport.send true t r).1 = Except.ok false →
        (PythonCanTransport.send true t r).2 = t + 1)
    ∧ (∀ (t : ℕ) (fid : ℤ) (dlc : ℕ) (ext : Bool) (r : LinkResult),
        (SlcanSerialTransport.send true t fid dlc ext r).1 = Except.ok false →
        (SlcanSerialTransport.send true t fid dlc ext r).2 = t + 1) := by
  refine ⟨fun t => rfl, ?_, ?_, ?_, ?_⟩
  · intro t fid dlc ext r hf hr
    cases r with
    | ok => exact absurd rfl hr
    | busErr => simp [SlcanSerialTransport.send, hf]
    | fatal => simp [SlcanSerialTransport.send, hf]
  · intro t r hr
    cases r with
    | ok => exact absurd rfl hr
    | busErr => rfl
    | fatal => rfl
  · intro t r hmatch
    cases r with
    | ok => simp [PythonCanTransport.send] at hmatch
    | busErr => rfl
    | fatal => simp [PythonCanTransport.send] at hmatch
  · intro t fid dlc ext r hmatch
    cases hf : SlcanSerialTransport.format_frame fid dlc ext with
    | error e => simp [SlcanSerialTransport.send, hf] at hmatch
    | ok u =>
        cases r with
        | ok => simp [SlcanSerialTransport.send, hf] at hmatch
        | busErr => simp [SlcanSerialTransport.send, hf]
        | fatal => simp [SlcanSerialTransport.send, hf]

/-- C6 witness: concrete recoverable failures on the python-can and serial
SLCAN transports return False with `tx_errors` going from 0 to 1. -/
theorem send_failure_contract_witness :
    PythonCanTransport.send true 0 LinkResult.busErr = (Except.ok false, 1)
    ∧ SlcanSerialTransport.send true 0 100 8 false LinkResult.busErr
        = (Except.ok false, 1) :=
  ⟨send_failure_contract.1 0,
   send_failure_contract.2.1 0 100 8 false LinkResult.busErr
     (by norm_num [SlcanSerialTransport.format_frame]) (by simp)⟩

/-- C7: every transport close never raises, releases the underlying link
reference, and a second close on an already-closed handle is a no-op (the
`none` cases), for all outcomes of the underlying teardown calls. -/
theorem close_never_raises_and_is_idempotent :
    (∀ (bus : Option Unit) (s c : Except String Unit),
        PythonCanTransport.close bus s c = Except.ok none)
    ∧ (∀ (dev : Option Unit) (r1 r2 r3 : Except String Unit),
        TermuxUsbSlcanTransport.close dev r1 r2 r3 = Except.ok none)
    ∧ (∀ (ser : Option Unit) (w c : Except String Unit),
        SlcanSerialTransport.close ser w c = Except.ok none) := by
  refine ⟨?_, ?_, ?_⟩
  · intro bus s c
    cases bus <;> cases s <;> cases c <;> rfl
  · intro dev r1 r2 r3
    cases dev <;> cases r1 <;> cases r2 <;> cases r3 <;> rfl
  · intro ser w c
    cases ser <;> cases w <;> cases c <;> rfl

/-- One observation inside the reopen retry loop of `cli_runner.main`: the
external stop signal is seen, `bus.open()` succeeds, or `bus.open()` raises. -/
inductive ReopenEvent where
  | stop
  | openOk
  | openFail
deriving DecidableEq

/-- Result of the reopen retry loop: whether the bus was reopened, the final
consecutive-failure counter and backoff variable, and the sleeps performed
(one per failed reopen attempt, in order). -/
structure ReopenResult where
  reopened : Bool
  consec : ℕ
  backoff : ℚ
  sleeps : List ℚ
deriving DecidableEq

/-- The `while not stop_evt.is_set()` reopen retry loop of `cli_runner.main`:
on a stop observation (or an exhausted trace) it exits without reopening; on a
successful `open()` it resets the counter to 0 and the backoff to the 0.5 s
floor; on a failed `open()` it sleeps for the current backoff and doubles it,
capped at 2.0 s. -/
def reopenLoop (consec : ℕ) (backoff : ℚ) : List ReopenEvent → ReopenResult
  | [] => ⟨false, consec, backoff, []⟩
  | ReopenEvent.stop :: _ => ⟨false, consec, backoff, []⟩
  | ReopenEvent.openOk :: _ => ⟨true, 0, 1 / 2, []⟩
  | ReopenEvent.openFail :: rest =>
      let r := reopenLoop consec (min (backoff * 2) 2) rest
      ⟨r.reopened, r.consec, r.backoff, backoff :: r.sleeps⟩

/-- Effect of handling one send result in `cli_runner.main`: whether the
session loop survives, the new counter and backoff, whether the reopen path
(which closes the transport) was entered, and the backoff sleeps performed. -/
structure StepResult where
  alive : Bool
  consec : ℕ
  backoff : ℚ
  enteredReopen : Bool
  sleeps : List ℚ
deriving DecidableEq

/-- The per-send failure handling of `cli_runner.main`: a successful send
resets the counter to 0 and the backoff to 0.5; a failed send increments the
counter, and once it reaches 50 the transport is closed and the reopen retry
loop runs, ending the session if it exits without reopening. -/
def stepSend (consec : ℕ) (backoff : ℚ) (ok : Bool) (ev : List ReopenEvent) :
    StepResult :=
  if ok then ⟨true, 0, 1 / 2, false, []⟩
  else
    if 50 ≤ consec + 1 then
      let r := reopenLoop (consec + 1) backoff ev
      ⟨r.reopened, r.consec, r.backoff, true, r.sleeps⟩
    else ⟨true, consec + 1, backoff, false, []⟩

/-- A sequence of send outcomes processed by the transmission loop, each with
the reopen-loop observations available should the reopen path be entered.
Returns (session alive, counter, backoff, reopen path ever entered). -/
def runSends (consec : ℕ) (backoff : ℚ) :
    List (Bool × List ReopenEvent) → Bool × ℕ × ℚ × Bool
  | [] => (true, consec, backoff, false)
  | (ok, ev) :: rest =>
      let s := stepSend consec backoff ok ev
      if s.alive then
        let r := runSends s.consec s.backoff rest
        (r.1, r.2.1, r.2.2.1, s.enteredReopen || r.2.2.2)
      else (false, s.consec, s.backoff, s.enteredReopen)

lemma runSends_replicate_fail (k : ℕ) : ∀ (c : ℕ) (b : ℚ)
    (rest : List (Bool × List ReopenEvent)), c + k < 50 →
    runSends c b (List.replicate k (false, []) ++ rest) = runSends (c + k) b rest := by
  induction k with
  | zero => intro c b rest h; simp [List.replicate]
  | succ k ih =>
      intro c b rest h
      have hlt : ¬ 50 ≤ c + 1 := by omega
      rw [List.replicate_succ, List.cons_append, runSends]
      simp only [stepSend, Bool.false_eq_true, if_false, if_neg hlt]
      simp only [if_pos]
      rw [ih (c + 1) b rest (by omega)]
      have harr : c + 1 + k = c + (k + 1) := by omega
      rw [harr]
      rcases runSends (c + (k + 1)) b rest with ⟨a, x, y, z⟩
      simp

lemma reopenLoop_doubling (n : ℕ) : ∀ (c : ℕ) (b : ℚ), 0 ≤ b → b ≤ 2 →
    reopenLoop c b (List.replicate n ReopenEvent.openFail ++ [ReopenEvent.openOk])
      = ⟨true, 0, 1 / 2, (List.range n).map fun k => min (b * 2 ^ k) 2⟩ := by
  induction n with
  | zero => intro c b h0 h2; simp [reopenLoop]
  | succ n ih =>
      intro c b h0 h2
      rw [List.replicate_succ, List.cons_append, reopenLoop]
      have hb0 : (0 : ℚ) ≤ min (b * 2) 2 := le_min (by linarith) (by norm_num)
      have hb2 : min (b * 2) 2 ≤ 2 := min_le_right _ _
      rw [ih c (min (b * 2) 2) hb0 hb2]
      have htail : ∀ j : ℕ,
          min (min (b * 2) 2 * 2 ^ j) 2 = min (b * (2 ^ j * 2)) 2 := by
        intro j
        have hp : (0 : ℚ) ≤ 2 ^ j := by positivity
        have h2k : (2 : ℚ) ≤ 2 * 2 ^ j := by
          have hone : (1 : ℚ) ≤ 2 ^ j := one_le_pow₀ (by norm_num)
          linarith
        rw [min_mul_of_nonneg _ _ hp, min_assoc, min_eq_right h2k]
        ring_nf
      have hhead : min (b * 2 ^ (0 : ℕ)) 2 = b := by
        rw [pow_zero, mul_one]; exact min_eq_left h2
      rw [List.range_succ_eq_map, List.map_cons, List.map_map, hhead]
      congr 1
      congr 1
      apply List.map_congr_left
      intro j hj
      simp only [Function.comp_apply, pow_succ]
      exact htail j

/-- C4: starting from a fresh session (counter 0, backoff at the 0.5 s floor),
49 consecutive send failures followed by one success never enter the reopen
path and leave the counter at 0 and the backoff at 0.5; when the counter
reaches 50 the reopen path (which closes the transport) is entered, and the
reopen retries sleep 0.5, 1.0, 2.0, 2.0, ... seconds — the backoff starts at
the floor and doubles after each failed attempt, capped at 2.0 — until an
`open()` succeeds (resetting counter and backoff) or a stop is observed
(exiting without reopening). -/
theorem recovery_state_machine_behaviour :
    runSends 0 (1 / 2) (List.replicate 49 (false, []) ++ [(true, [])])
        = (true, 0, 1 / 2, false)
    ∧ (∀ n : ℕ,
        reopenLoop 50 (1 / 2) (List.replicate n ReopenEvent.openFail ++ [ReopenEvent.openOk])
          = ⟨true, 0, 1 / 2, (List.range n).map fun k => min ((1 / 2) * 2 ^ k) 2⟩)
    ∧ (∀ (c : ℕ) (b : ℚ) (evs : List ReopenEvent),
        reopenLoop c b (ReopenEvent.stop :: evs) = ⟨false, c, b, []⟩)
    ∧ (∀ (b : ℚ) (ev : List ReopenEvent), (stepSend 49 b false ev).enteredReopen = true)
    ∧ (∀ b : ℚ, stepSend 49 b false [ReopenEvent.openOk] = ⟨true, 0, 1 / 2, true, []⟩) := by
  refine ⟨?_, ?_, ?_, ?_, ?_⟩
  · rw [runSends_replicate_fail 49 0 (1 / 2) [(true, [])] (by omega)]
    simp [runSends, stepSend]
  · intro n
    exact reopenLoop_doubling n 50 (1 / 2) (by norm_num) (by norm_num)
  · intro c b evs
    rfl
  · intro b ev
    simp [stepSend]
  · intro b
    simp [stepSend, reopenLoop]

/-- Modelled from the spec: the DBC asset (`assets/dbc`, not part of the
source tree) fixes the file order in which `cantools` lists the five
messages; the message layout contract in the spec names them
`megasquirt_dash0` .. `megasquirt_dash4` with ids 1512..1516, so the file
order is modelled as dash0 through dash4. Per-message ids, names and signal
metadata are exactly the `EXPECTED_NAMES` / `EXPECTED_SIGNAL_META` tables
that `dbc_loader.assert_expected_layout` enforces at startup. -/
def specMessages : List Message :=
  [ { name := "megasquirt_dash0", frame_id := 1512, length := 8, signals :=
      [ { name := "map", start := 7, length := 16, big_endian := true,
          is_signed := true, scale := 1 / 10, offset := 0 },
        { name := "rpm", start := 23, length := 16, big_endian := true,
          is_signed := false, scale := 1, offset := 0 },
        { name := "clt", start := 39, length := 16, big_endian := true,
          is_signed := true, scale := 1 / 10, offset := 0 },
        { name := "tps", start := 55, length := 16, big_endian := true,
          is_signed := true, scale := 1 / 10, offset := 0 } ] },
    { name := "megasquirt_dash1", frame_id := 1513, length := 8, signals :=
      [ { name := "pw1", start := 7, length := 16, big_endian := true,
          is_signed := false, scale := 1 / 1000, offset := 0 },
        { name := "pw2", start := 23, length := 16, big_endian := true,
          is_signed := false, scale := 1 / 1000, offset := 0 },
        { name := "mat", start := 39, length := 16, big_endian := true,
          is_signed := true, scale := 1 / 10, offset := 0 },
        { name := "adv_deg", start := 55, length := 16, big_endian := true,
          is_signed := true, scale := 1 / 10, offset := 0 } ] },
    { name := "megasquirt_dash2", frame_id := 1514, length := 8, signals :=
      [ { name := "AFR1", start := 15, length := 8, big_endian := true,
          is_signed := false, scale := 1 / 10, offset := 0 },
        { name := "afrtgt1", start := 7, length := 8, big_endian := true,
          is_signed := false, scale := 1 / 10, offset := 0 },
        { name := "egocor1", start := 23, length := 16, big_endian := true,
          is_signed := true, scale := 1 / 10, offset := 0 },
        { name := "egt1", start := 39, length := 16, big_endian := true,
          is_signed := true, scale := 1 / 10, offset := 0 },
        { name := "pwseq1", start := 55, length := 16, big_endian := true,
          is_signed := true, scale := 1 / 1000, offset := 0 } ] },
    { name := "megasquirt_dash3", frame_id := 1515, length := 8, signals :=
      [ { name := "batt", start := 7, length := 16, big_endian := true,
          is_signed := true, scale := 1 / 10, offset := 0 },
        { name := "sensors1", start := 23, length := 16, big_endian := true,
          is_signed := true, scale := 1 / 100, offset := 0 },
        { name := "sensors2", start := 39, length := 16, big_endian := true,
          is_signed := true, scale := 1 / 100, offset := 0 },
        { name := "knk_rtd", start := 55, length := 8, big_endian := true,
          is_signed := false, scale := 1 / 10, offset := 0 } ] },
    { name := "megasquirt_dash4", frame_id := 1516, length := 8, signals :=
      [ { name := "VSS1", start := 7, length := 16, big_endian := true,
          is_signed := false, scale := 1 / 10, offset := 0 },
        { name := "tc_retard", start := 23, length := 16, big_endian := true,
          is_signed := true, scale := 1 / 10, offset := 0 },
        { name := "launch_timing", start := 39, length := 16, big_endian := true,
          is_signed := true, scale := 1 / 10, offset := 0 } ] } ]

/-- The message names that receive a payload in `cli_runner._build_payloads`:
one entry per message of the database, keyed by name. -/
def payload_names (msgs : List Message) : List String :=
  msgs.map Message.name

/-- The frame ids sent by one tick of the transmitting branch of
`cli_runner.main`: iterate the database messages in order, skip a message
whose name has no payload, and send the rest. -/
def tick_send_ids (msgs : List Message) : List ℕ :=
  (msgs.filter fun m => (payload_names msgs).contains m.name).map Message.frame_id

/-- C5: on a tick in a transmitting mode, the loaded messages are sent in the
fixed database order, which for the loaded dash database is ascending by CAN
frame id (1512..1516). -/
theorem tick_send_order_ascending :
    tick_send_ids specMessages = [1512, 1513, 1514, 1515, 1516]
    ∧ List.Chain' (· < ·) (tick_send_ids specMessages) := by
  have h : tick_send_ids specMessages = [1512, 1513, 1514, 1515, 1516] := by
    simp [tick_send_ids, payload_names, specMessages]
  refine ⟨h, ?_⟩
  rw [h]
  norm_num [List.chain'_cons]
